import Mathlib

/-!
Formal model of the tile-space geometric transform pipeline and of the
data-collection / rendering control flow of a traffic-data collection
repository (collect_all_data.py, collect_speed_data.py,
visualize_traffic.py).  Python float arithmetic is idealised as real
arithmetic; Python exceptions are modelled with `Except`.
-/

/-- Python `int()` applied to a real value: truncation toward zero,
i.e. floor for non-negative arguments and ceiling for negative ones. -/
noncomputable def pyInt (x : ℝ) : ℤ := if x < 0 then ⌈x⌉ else ⌊x⌋

/-- `math.radians`: degrees to radians. -/
noncomputable def radians (d : ℝ) : ℝ := d * (Real.pi / 180)

/-- `math.degrees`: radians to degrees. -/
noncomputable def degrees (r : ℝ) : ℝ := r * (180 / Real.pi)

/-- The real-valued `xtile` computed inside `latlon_to_tile_xy`
(collect_all_data.py line 36), before `int()` truncation. -/
noncomputable def xtile (lon : ℝ) (z : ℕ) : ℝ := (lon + 180) / 360 * 2 ^ z

/-- The real-valued `ytile` computed inside `latlon_to_tile_xy`
(collect_all_data.py lines 37-38), before `int()` truncation. -/
noncomputable def ytile (lat : ℝ) (z : ℕ) : ℝ :=
  (1 - Real.log (Real.tan (radians lat) + 1 / Real.cos (radians lat)) / Real.pi) / 2 * 2 ^ z

/-- `latlon_to_tile_xy` (collect_all_data.py lines 33-39). -/
noncomputable def latlon_to_tile_xy (lat lon : ℝ) (z : ℕ) : ℤ × ℤ :=
  (pyInt (xtile lon z), pyInt (ytile lat z))

/-- `tile_pixel_to_lonlat` (collect_all_data.py lines 42-50); returns `(lon, lat)`. -/
noncomputable def tile_pixel_to_lonlat (z : ℕ) (tx ty px py extent : ℝ) : ℝ × ℝ :=
  let n : ℝ := 2 ^ z
  let x_norm := (tx + px / extent) / n
  let y_norm := (ty + py / extent) / n
  let lon := x_norm * 360 - 180
  let merc_n := Real.pi - 2 * Real.pi * y_norm
  let lat := degrees (Real.arctan (Real.sinh merc_n))
  (lon, lat)

/-- Python `range(a, b)` over integers, as a list. -/
def intRange (a b : ℤ) : List ℤ := (List.range (b - a).toNat).map (fun i => a + i)

/-- `tiles_for_bbox` (collect_all_data.py lines 53-58): Python unpacks
`tx_min, ty_max` from the min corner and `tx_max, ty_min` from the max
corner, then enumerates the inclusive rectangle of tile indices. -/
noncomputable def tiles_for_bbox (min_lat min_lon max_lat max_lon : ℝ) (z : ℕ) :
    List (ℤ × ℤ) :=
  let c1 := latlon_to_tile_xy min_lat min_lon z
  let c2 := latlon_to_tile_xy max_lat max_lon z
  (intRange (min c1.1 c2.1) (max c1.1 c2.1 + 1)).flatMap fun tx =>
    (intRange (min c2.2 c1.2) (max c2.2 c1.2 + 1)).map fun ty => (tx, ty)

/-- `get_color_for_traffic_level` (visualize_traffic.py lines 28-41);
colors are BGR triples. -/
noncomputable def get_color_for_traffic_level (traffic_level : ℝ) : ℕ × ℕ × ℕ :=
  let level := max 0 (min 1 traffic_level)
  if 0.7 ≤ level then (0, 255, 0)
  else if 0.5 ≤ level then (0, 255, 255)
  else if 0.3 ≤ level then (0, 165, 255)
  else (0, 0, 255)

/-- Coordinate payload shapes occurring in a decoded tile geometry. -/
inductive Coords
  | pair : ℝ × ℝ → Coords
  | list1 : List (ℝ × ℝ) → Coords
  | list2 : List (List (ℝ × ℝ)) → Coords

/-- A raw decoded geometry dict: optional `type` and `coordinates` keys
(`none` models an absent key); a wholly missing or falsy geometry value
is modelled by `none : Option RawGeom` at use sites. -/
structure RawGeom where
  type? : Option String
  coordinates? : Option Coords

/-- A reprojected (geographic) GeoJSON geometry, as produced by
`convert_geometry` and consumed by `extract_center_point`. -/
inductive Geometry
  | point : ℝ × ℝ → Geometry
  | lineString : List (ℝ × ℝ) → Geometry
  | multiLineString : List (List (ℝ × ℝ)) → Geometry
  | polygon : List (List (ℝ × ℝ)) → Geometry

/-- `conv_point` (collect_all_data.py lines 90-92). -/
noncomputable def conv_point (z : ℕ) (tx ty : ℤ) (extent : ℝ) (pt : ℝ × ℝ) : ℝ × ℝ :=
  tile_pixel_to_lonlat z (tx : ℝ) (ty : ℝ) pt.1 pt.2 extent

/-- `convert_geometry` (collect_all_data.py lines 82-102). `.ok none`
models the Python function returning `None`; `.error ()` models a raised
exception (a coordinate payload whose shape does not fit the declared
type makes the Python coordinate unpacking or arithmetic raise). -/
noncomputable def convert_geometry (geom : Option RawGeom) (z : ℕ) (tx ty : ℤ)
    (extent : ℝ) : Except Unit (Option Geometry) :=
  match geom with
  | none => .ok none
  | some g =>
    match g.type?, g.coordinates? with
    | none, _ => .ok none
    | some _, none => .ok none
    | some typ, some coords =>
      if typ = "Point" then
        match coords with
        | .pair pt => .ok (some (.point (conv_point z tx ty extent pt)))
        | _ => .error ()
      else if typ = "LineString" then
        match coords with
        | .list1 ps => .ok (some (.lineString (ps.map (conv_point z tx ty extent))))
        | _ => .error ()
      else if typ = "MultiLineString" then
        match coords with
        | .list2 pss =>
          .ok (some (.multiLineString (pss.map (List.map (conv_point z tx ty extent)))))
        | _ => .error ()
      else if typ = "Polygon" then
        match coords with
        | .list2 rs =>
          .ok (some (.polygon (rs.map (List.map (conv_point z tx ty extent)))))
        | _ => .error ()
      else .ok none

/-- A raw decoded tile feature; only its geometry matters here. -/
structure RawFeature where
  geometry : Option RawGeom

/-- The per-feature loop of `collect_traffic_flow` over one decoded layer
(collect_all_data.py lines 130-137): a feature whose raw geometry is
falsy or lacks a type is skipped, a feature whose conversion returns
`None` is skipped, and a converted geometry is collected in order; an
exception during conversion propagates (to the per-tile handler). -/
noncomputable def collect_layer_geometries (z : ℕ) (tx ty : ℤ) (extent : ℝ) :
    List RawFeature → Except Unit (List Geometry)
  | [] => .ok []
  | f :: rest =>
    match f.geometry with
    | none => collect_layer_geometries z tx ty extent rest
    | some g =>
      if g.type? = none then collect_layer_geometries z tx ty extent rest
      else
        match convert_geometry (some g) z tx ty extent with
        | .error e => .error e
        | .ok none => collect_layer_geometries z tx ty extent rest
        | .ok (some og) => (collect_layer_geometries z tx ty extent rest).map (og :: ·)

/-- `extract_center_point` (collect_speed_data.py lines 52-75): returns a
`(lat, lon)` pair of optional floats, `(none, none)` for an unrecognized
geometry type; `.error ()` models the IndexError raised on an empty
coordinate sequence. -/
def extract_center_point (geometry : Geometry) : Except Unit (Option ℝ × Option ℝ) :=
  match geometry with
  | .lineString coords =>
    match coords[coords.length / 2]? with
    | some c => .ok (some c.2, some c.1)
    | none => .error ()
  | .multiLineString coords =>
    match coords with
    | [] => .error ()
    | cs :: _ =>
      match cs[cs.length / 2]? with
      | some c => .ok (some c.2, some c.1)
      | none => .error ()
  | .point c => .ok (some c.2, some c.1)
  | .polygon _ => .ok (none, none)

/-- The per-feature skip logic of the sampler `main`
(collect_speed_data.py lines 99-103), applied to the selected features:
the list of `(lat, lon)` query points actually issued. The Python test
`if not lat or not lon: continue` skips when either component is `None`
or equals `0.0` (float truthiness). -/
noncomputable def sample_query_points : List Geometry → Except Unit (List (ℝ × ℝ))
  | [] => .ok []
  | g :: rest =>
    match extract_center_point g with
    | .error e => .error e
    | .ok (some lat, some lon) =>
      if lat = 0 ∨ lon = 0 then sample_query_points rest
      else (sample_query_points rest).map ((lat, lon) :: ·)
    | .ok _ => sample_query_points rest

/-- Events observable in the tile loop of `collect_traffic_flow`. -/
inductive Ev
  | fetch (tx ty : ℤ)
  | errorLog (tx ty : ℤ)
  | sleep
  deriving DecidableEq

/-- The tile loop of `collect_traffic_flow` (collect_all_data.py lines
116-160) as an event trace. `ok` tells whether fetching and processing a
tile succeeds; on failure the `except` branch logs the error and
`continue`s, which skips the `time.sleep(0.2)` at the bottom of the loop
body; on success the sleep runs after processing. -/
def collect_traffic_flow_trace (ok : ℤ × ℤ → Bool) : List (ℤ × ℤ) → List Ev
  | [] => []
  | (tx, ty) :: rest =>
    (if ok (tx, ty) then [Ev.fetch tx ty, Ev.sleep]
     else [Ev.fetch tx ty, Ev.errorLog tx ty])
      ++ collect_traffic_flow_trace ok rest

/-- `latlon_to_pixel` (visualize_traffic.py lines 19-25). -/
noncomputable def latlon_to_pixel (lat lon min_lat max_lat min_lon max_lon : ℝ)
    (img_width img_height : ℤ) : ℤ × ℤ :=
  let norm_lon := (lon - min_lon) / (max_lon - min_lon)
  let norm_lat := (lat - min_lat) / (max_lat - min_lat)
  (pyInt (norm_lon * (img_width : ℝ)), pyInt ((1 - norm_lat) * (img_height : ℝ)))

/-- Renderer bounding-box/canvas constants (visualize_traffic.py lines 13-16). -/
noncomputable def MIN_LAT : ℝ := 47.0342

/-- Renderer bounding-box constant (visualize_traffic.py line 13). -/
noncomputable def MIN_LON : ℝ := 27.5010

/-- Renderer bounding-box constant (visualize_traffic.py line 14). -/
noncomputable def MAX_LAT : ℝ := 47.2852

/-- Renderer bounding-box constant (visualize_traffic.py line 14). -/
noncomputable def MAX_LON : ℝ := 27.6943

/-- Canvas width (visualize_traffic.py line 16). -/
def IMG_WIDTH : ℤ := 5000

/-- Canvas height (visualize_traffic.py line 16). -/
def IMG_HEIGHT : ℤ := 5000

/-- The per-point projection of `load_segments` (visualize_traffic.py
line 65-66): each element of a line is a `(lon, lat)` pair. -/
noncomputable def segment_point_pixel (p : ℝ × ℝ) : ℤ × ℤ :=
  latlon_to_pixel p.2 p.1 MIN_LAT MAX_LAT MIN_LON MAX_LON IMG_WIDTH IMG_HEIGHT

/-- The canvas-membership test of `load_segments` (visualize_traffic.py
line 67). -/
def in_canvas (q : ℤ × ℤ) : Bool :=
  decide (0 ≤ q.1 ∧ q.1 < IMG_WIDTH ∧ 0 ≤ q.2 ∧ q.2 < IMG_HEIGHT)

/-- The inner loop of `load_segments` (visualize_traffic.py lines 64-68)
building `pixel_coords` for one line: each point is projected and kept
only when it lies on the canvas. -/
noncomputable def line_pixel_coords : List (ℝ × ℝ) → List (ℤ × ℤ)
  | [] => []
  | p :: rest =>
    let q := segment_point_pixel p
    if in_canvas q then q :: line_pixel_coords rest else line_pixel_coords rest

/-- The drawing loop of `visualize` (visualize_traffic.py lines 93-97):
the list of straight line segments drawn for one polyline's surviving
pixel coordinates (consecutive pairs). -/
def drawn_segments (coords : List (ℤ × ℤ)) : List ((ℤ × ℤ) × (ℤ × ℤ)) :=
  coords.zip coords.tail

/-- C3: `tiles_for_bbox` applied to a degenerate bounding box whose two
corners are the same point returns exactly the one tile computed by
`latlon_to_tile_xy` for that point. -/
theorem tiles_for_bbox_degenerate (lat lon : ℝ) (z : ℕ) :
    tiles_for_bbox lat lon lat lon z = [latlon_to_tile_xy lat lon z] := by
  simp [tiles_for_bbox, intRange, List.range_succ]

/-- Clamping helper: for a threshold in (0, 1], the clamped level clears
the threshold exactly when the raw level does. -/
theorem clamp_threshold (u c : ℝ) (hc0 : 0 < c) (hc1 : c ≤ 1) :
    c ≤ max 0 (min 1 u) ↔ c ≤ u := by
  rw [le_max_iff, le_min_iff]
  constructor
  · rintro (h | ⟨-, h⟩)
    · linarith
    · exact h
  · intro h
    exact Or.inr ⟨hc1, h⟩

/-- C7: `get_color_for_traffic_level` clamps the level into [0,1] and
selects by thresholds tested highest first with ≥ comparisons
(0.7 green, 0.5 yellow, 0.3 orange, otherwise red); boundary values take
the higher bucket, and out-of-range inputs are clamped. -/
theorem get_color_for_traffic_level_spec (t : ℝ) :
    (0.7 ≤ t → get_color_for_traffic_level t = (0, 255, 0)) ∧
    (0.5 ≤ t → t < 0.7 → get_color_for_traffic_level t = (0, 255, 255)) ∧
    (0.3 ≤ t → t < 0.5 → get_color_for_traffic_level t = (0, 165, 255)) ∧
    (t < 0.3 → get_color_for_traffic_level t = (0, 0, 255)) ∧
    get_color_for_traffic_level 0.7 = (0, 255, 0) ∧
    get_color_for_traffic_level 0.699999 = (0, 255, 255) ∧
    get_color_for_traffic_level 1.5 = (0, 255, 0) ∧
    get_color_for_traffic_level (-1) = (0, 0, 255) := by
  have lt_clamp : ∀ u c : ℝ, 0 < c → u < c → max 0 (min 1 u) < c := by
    intro u c hc0 hu
    exact max_lt hc0 (lt_of_le_of_lt (min_le_right 1 u) hu)
  have green : ∀ u : ℝ, 0.7 ≤ u → get_color_for_traffic_level u = (0, 255, 0) := by
    intro u h
    simp only [get_color_for_traffic_level]
    rw [if_pos ((clamp_threshold u 0.7 (by norm_num) (by norm_num)).mpr h)]
  have yellow : ∀ u : ℝ, 0.5 ≤ u → u < 0.7 →
      get_color_for_traffic_level u = (0, 255, 255) := by
    intro u h1 h2
    simp only [get_color_for_traffic_level]
    rw [if_neg (not_le.mpr (lt_clamp u 0.7 (by norm_num) h2)),
      if_pos ((clamp_threshold u 0.5 (by norm_num) (by norm_num)).mpr h1)]
  have orange : ∀ u : ℝ, 0.3 ≤ u → u < 0.5 →
      get_color_for_traffic_level u = (0, 165, 255) := by
    intro u h1 h2
    simp only [get_color_for_traffic_level]
    rw [if_neg (not_le.mpr (lt_clamp u 0.7 (by norm_num) (by linarith))),
      if_neg (not_le.mpr (lt_clamp u 0.5 (by norm_num) h2)),
      if_pos ((clamp_threshold u 0.3 (by norm_num) (by norm_num)).mpr h1)]
  have red : ∀ u : ℝ, u < 0.3 → get_color_for_traffic_level u = (0, 0, 255) := by
    intro u h
    simp only [get_color_for_traffic_level]
    rw [if_neg (not_le.mpr (lt_clamp u 0.7 (by norm_num) (by linarith))),
      if_neg (not_le.mpr (lt_clamp u 0.5 (by norm_num) (by linarith))),
      if_neg (not_le.mpr (lt_clamp u 0.3 (by norm_num) h))]
  exact ⟨green t, yellow t, orange t, red t,
    green 0.7 (by norm_num), yellow 0.699999 (by norm_num) (by norm_num),
    green 1.5 (by norm_num), red (-1) (by norm_num)⟩

/-- Witness for C7 at the concrete level 0.6 (yellow bucket). -/
theorem get_color_for_traffic_level_spec_witness :
    (0.5 : ℝ) ≤ 0.6 ∧ (0.6 : ℝ) < 0.7 ∧
      get_color_for_traffic_level 0.6 = (0, 255, 255) :=
  ⟨by norm_num, by norm_num,
    (get_color_for_traffic_level_spec 0.6).2.1 (by norm_num) (by norm_num)⟩

/-- C6: for a feature with a non-empty LineString geometry (or
MultiLineString, using the first sub-line, or a Point),
`extract_center_point` returns the coordinate pair at index
`floor(length / 2)` with the `(lon, lat)` storage order swapped to a
`(lat, lon)` result. -/
theorem extract_center_point_spec (cs : List (ℝ × ℝ)) (css : List (List (ℝ × ℝ)))
    (lon lat : ℝ) :
    (cs[cs.length / 2]? = some (lon, lat) →
      extract_center_point (.lineString cs) = .ok (some lat, some lon)) ∧
    (css.head? = some cs → cs[cs.length / 2]? = some (lon, lat) →
      extract_center_point (.multiLineString css) = .ok (some lat, some lon)) ∧
    extract_center_point (.point (lon, lat)) = .ok (some lat, some lon) := by
  refine ⟨fun h => ?_, fun hh h => ?_, rfl⟩
  · simp [extract_center_point, h]
  · match css, hh with
    | cs :: _, rfl => simp [extract_center_point, h]

/-- Witness for C6: the spec's end-to-end example, a three-point
LineString whose middle element `(27.59, 47.17)` becomes the query point
`(47.17, 27.59)`. -/
theorem extract_center_point_spec_witness :
    ([((27.58 : ℝ), (47.16 : ℝ)), (27.59, 47.17),
        (27.60, 47.18)][([((27.58 : ℝ), (47.16 : ℝ)), (27.59, 47.17),
        (27.60, 47.18)].length / 2)]? = some (27.59, 47.17)) ∧
      extract_center_point (.lineString
          [((27.58 : ℝ), (47.16 : ℝ)), (27.59, 47.17), (27.60, 47.18)]) =
        .ok (some 47.17, some 27.59) :=
  ⟨rfl, (extract_center_point_spec
      [((27.58 : ℝ), (47.16 : ℝ)), (27.59, 47.17), (27.60, 47.18)] []
      27.59 47.17).1 rfl⟩

/-- C10: the sampler skips a feature, issuing no query, whenever the
extracted midpoint has a latitude or longitude equal to 0 (float
truthiness), and features whose geometry type is unrecognized, for which
`extract_center_point` returns `(None, None)`, are skipped by the same
truthiness test. -/
theorem sample_query_points_skip (g : Geometry) (rest : List Geometry)
    (la lo : Option ℝ) :
    (extract_center_point g = .ok (la, lo) →
      (la = none ∨ la = some 0 ∨ lo = none ∨ lo = some 0) →
      sample_query_points (g :: rest) = sample_query_points rest) ∧
    ∀ rs : List (List (ℝ × ℝ)),
      extract_center_point (.polygon rs) = .ok (none, none) ∧
        sample_query_points (.polygon rs :: rest) = sample_query_points rest := by
  constructor
  · intro hex hfalsy
    simp only [sample_query_points, hex]
    match la, lo, hfalsy with
    | none, none, _ => rfl
    | none, some _, _ => rfl
    | some _, none, _ => rfl
    | some a, some b, h =>
      have hab : a = 0 ∨ b = 0 := by
        rcases h with h | h | h | h <;> simp_all
      exact if_pos hab
  · intro rs
    exact ⟨rfl, by simp [sample_query_points, extract_center_point]⟩

/-- `pyInt` agrees with both floor and ceiling at exact integers. -/
theorem pyInt_intCast (m : ℤ) : pyInt (m : ℝ) = m := by
  unfold pyInt
  split_ifs <;> simp

/-- `pyInt` of a real expression known to equal an integer. -/
theorem pyInt_eq (x : ℝ) (m : ℤ) (h : x = (m : ℝ)) : pyInt x = m :=
  h ▸ pyInt_intCast m

/-- C9 counterexample: projecting the three-point polyline below drops
only its middle point (off-canvas to the left), so the drawing loop
draws one segment joining the pixel images of the first and third
points — two points that were not consecutive in the original
coordinate sequence; neither consecutive original pair projects to the
drawn segment. -/
theorem drawn_segments_nonconsecutive :
    segment_point_pixel ((27.5010 : ℝ), (47.2852 : ℝ)) = (0, 0) ∧
    segment_point_pixel ((27.46234 : ℝ), (47.2852 : ℝ)) = (-1000, 0) ∧
    segment_point_pixel ((27.53966 : ℝ), (47.2852 : ℝ)) = (1000, 0) ∧
    line_pixel_coords [((27.5010 : ℝ), (47.2852 : ℝ)), (27.46234, 47.2852),
      (27.53966, 47.2852)] = [(0, 0), (1000, 0)] ∧
    drawn_segments (line_pixel_coords [((27.5010 : ℝ), (47.2852 : ℝ)),
      (27.46234, 47.2852), (27.53966, 47.2852)]) = [((0, 0), (1000, 0))] ∧
    (segment_point_pixel ((27.5010 : ℝ), (47.2852 : ℝ)),
      segment_point_pixel ((27.46234 : ℝ), (47.2852 : ℝ))) ≠ ((0, 0), (1000, 0)) ∧
    (segment_point_pixel ((27.46234 : ℝ), (47.2852 : ℝ)),
      segment_point_pixel ((27.53966 : ℝ), (47.2852 : ℝ))) ≠ ((0, 0), (1000, 0)) := by
  have hpx1 : segment_point_pixel ((27.5010 : ℝ), (47.2852 : ℝ)) = (0, 0) := by
    simp only [segment_point_pixel, latlon_to_pixel, MIN_LAT, MAX_LAT, MIN_LON, MAX_LON,
      IMG_WIDTH, IMG_HEIGHT, Prod.mk.injEq]
    exact ⟨pyInt_eq _ 0 (by push_cast; norm_num), pyInt_eq _ 0 (by push_cast; norm_num)⟩
  have hpx2 : segment_point_pixel ((27.46234 : ℝ), (47.2852 : ℝ)) = (-1000, 0) := by
    simp only [segment_point_pixel, latlon_to_pixel, MIN_LAT, MAX_LAT, MIN_LON, MAX_LON,
      IMG_WIDTH, IMG_HEIGHT, Prod.mk.injEq]
    exact ⟨pyInt_eq _ (-1000) (by push_cast; norm_num),
      pyInt_eq _ 0 (by push_cast; norm_num)⟩
  have hpx3 : segment_point_pixel ((27.53966 : ℝ), (47.2852 : ℝ)) = (1000, 0) := by
    simp only [segment_point_pixel, latlon_to_pixel, MIN_LAT, MAX_LAT, MIN_LON, MAX_LON,
      IMG_WIDTH, IMG_HEIGHT, Prod.mk.injEq]
    exact ⟨pyInt_eq _ 1000 (by push_cast; norm_num), pyInt_eq _ 0 (by push_cast; norm_num)⟩
  have hline : line_pixel_coords [((27.5010 : ℝ), (47.2852 : ℝ)), (27.46234, 47.2852),
      (27.53966, 47.2852)] = [(0, 0), (1000, 0)] := by
    simp only [line_pixel_coords, hpx1, hpx2, hpx3]
    norm_num [in_canvas, IMG_WIDTH, IMG_HEIGHT]
  refine ⟨hpx1, hpx2, hpx3, hline, by rw [hline]; rfl, ?_, ?_⟩
  · rw [hpx1, hpx2]
    simp
  · rw [hpx2, hpx3]
    simp

/-- C9 amended: out-of-canvas points are dropped individually, per
point, before any line is drawn — the surviving pixel vertices are
exactly the in-canvas projected points, in order, a subsequence of the
projected original sequence — and only in-canvas points are drawn; a
drawn segment joins consecutive survivors, which need not be consecutive
original points when an interior point was dropped. -/
theorem line_pixel_coords_filter (line : List (ℝ × ℝ)) :
    line_pixel_coords line = (line.map segment_point_pixel).filter in_canvas ∧
    (line_pixel_coords line).Sublist (line.map segment_point_pixel) ∧
    ∀ q ∈ line_pixel_coords line, in_canvas q = true := by
  have hf : line_pixel_coords line = (line.map segment_point_pixel).filter in_canvas := by
    induction line with
    | nil => rfl
    | cons p rest ih =>
      by_cases h : in_canvas (segment_point_pixel p)
      · simp [line_pixel_coords, h, ih]
      · simp [line_pixel_coords, h, ih]
  refine ⟨hf, ?_, ?_⟩
  · rw [hf]
    exact List.filter_sublist _
  · intro q hq
    rw [hf] at hq
    exact (List.mem_filter.mp hq).2

/-- Witness for C9 amended: the in-canvas corner point survives and is
certified in-canvas by the theorem. -/
theorem line_pixel_coords_filter_witness :
    ((0 : ℤ), (0 : ℤ)) ∈ line_pixel_coords [((27.5010 : ℝ), (47.2852 : ℝ))] ∧
      in_canvas ((0 : ℤ), (0 : ℤ)) = true := by
  have hpx : segment_point_pixel ((27.5010 : ℝ), (47.2852 : ℝ)) = (0, 0) := by
    simp only [segment_point_pixel, latlon_to_pixel, MIN_LAT, MAX_LAT, MIN_LON, MAX_LON,
      IMG_WIDTH, IMG_HEIGHT, Prod.mk.injEq]
    exact ⟨pyInt_eq _ 0 (by push_cast; norm_num), pyInt_eq _ 0 (by push_cast; norm_num)⟩
  have hmem : ((0 : ℤ), (0 : ℤ)) ∈ line_pixel_coords [((27.5010 : ℝ), (47.2852 : ℝ))] := by
    simp only [line_pixel_coords, hpx]
    norm_num [in_canvas, IMG_WIDTH, IMG_HEIGHT]
  exact ⟨hmem, (line_pixel_coords_filter [((27.5010 : ℝ), (47.2852 : ℝ))]).2.2
    ((0 : ℤ), (0 : ℤ)) hmem⟩

/-- `pyInt` is `floor` on non-negative arguments. -/
theorem pyInt_of_nonneg (x : ℝ) (h : 0 ≤ x) : pyInt x = ⌊x⌋ :=
  if_neg (not_lt.mpr h)

/-- For latitudes strictly between the poles, `radians` lands strictly
inside (-π/2, π/2). -/
theorem radians_mem_Ioo (lat : ℝ) (h1 : -90 < lat) (h2 : lat < 90) :
    -(Real.pi / 2) < radians lat ∧ radians lat < Real.pi / 2 := by
  have hp : (0 : ℝ) < Real.pi / 180 := by positivity
  constructor
  · calc -(Real.pi / 2) = -90 * (Real.pi / 180) := by ring
      _ < lat * (Real.pi / 180) := mul_lt_mul_of_pos_right h1 hp
  · calc radians lat = lat * (Real.pi / 180) := rfl
      _ < 90 * (Real.pi / 180) := mul_lt_mul_of_pos_right h2 hp
      _ = Real.pi / 2 := by ring

/-- The Mercator term of `ytile`: for latitudes strictly between the
poles, ln(tan θ + sec θ) is the inverse hyperbolic sine of tan θ. -/
theorem ytile_eq_arsinh (lat : ℝ) (z : ℕ) (h1 : -90 < lat) (h2 : lat < 90) :
    ytile lat z = (1 - Real.arsinh (Real.tan (radians lat)) / Real.pi) / 2 * 2 ^ z := by
  obtain ⟨hm1, hm2⟩ := radians_mem_Ioo lat h1 h2
  have hcos : 0 < Real.cos (radians lat) :=
    Real.cos_pos_of_mem_Ioo ⟨hm1, hm2⟩
  have hsq : Real.sqrt (1 + Real.tan (radians lat) ^ 2) = 1 / Real.cos (radians lat) := by
    rw [← Real.inv_sqrt_one_add_tan_sq hcos, one_div, inv_inv]
  unfold ytile
  rw [Real.arsinh, hsq]

/-- The latitude leg of `tile_pixel_to_lonlat` inverts the Mercator
transform exactly at the untruncated tile y coordinate. -/
theorem invLat_ytile (lat : ℝ) (z : ℕ) (h1 : -90 < lat) (h2 : lat < 90) :
    degrees (Real.arctan (Real.sinh
      (Real.pi - 2 * Real.pi * (ytile lat z / 2 ^ z)))) = lat := by
  obtain ⟨hm1, hm2⟩ := radians_mem_Ioo lat h1 h2
  have hn : ((2 : ℝ) ^ z) ≠ 0 := by positivity
  rw [ytile_eq_arsinh lat z h1 h2]
  have harg : Real.pi - 2 * Real.pi *
      ((1 - Real.arsinh (Real.tan (radians lat)) / Real.pi) / 2 * 2 ^ z / 2 ^ z) =
      Real.arsinh (Real.tan (radians lat)) := by
    field_simp
    ring
  rw [harg, Real.sinh_arsinh, Real.arctan_tan hm1 hm2]
  unfold degrees radians
  field_simp

/-- The latitude leg of `tile_pixel_to_lonlat` is antitone in the
normalized tile y coordinate. -/
theorem invLat_antitone (y1 y2 : ℝ) (h : y1 ≤ y2) :
    degrees (Real.arctan (Real.sinh (Real.pi - 2 * Real.pi * y2))) ≤
      degrees (Real.arctan (Real.sinh (Real.pi - 2 * Real.pi * y1))) := by
  have hp : (0 : ℝ) < 2 * Real.pi := by positivity
  have hm : Real.pi - 2 * Real.pi * y2 ≤ Real.pi - 2 * Real.pi * y1 := by
    have := mul_le_mul_of_nonneg_left h hp.le
    linarith
  have ha : Real.arctan (Real.sinh (Real.pi - 2 * Real.pi * y2)) ≤
      Real.arctan (Real.sinh (Real.pi - 2 * Real.pi * y1)) :=
    Real.arctan_strictMono.monotone (Real.sinh_le_sinh.mpr hm)
  have hpi : (0 : ℝ) ≤ 180 / Real.pi := by positivity
  exact mul_le_mul_of_nonneg_right ha hpi

/-- C1: converting an in-range point to a tile index with
`latlon_to_tile_xy` and mapping the tile's midpoint pixel
(px = py = extent/2) back with `tile_pixel_to_lonlat` recovers the point
to within one tile's angular width in longitude (360/2^z) and within the
containing tile's angular height in latitude (the latitude span between
the tile's top edge, py = 0, and bottom edge, py = extent); in-range
means the latitude is strictly between the poles with a non-negative
normalized Mercator y coordinate (the Web-Mercator tiling range) and the
longitude lies in [-180, 180]. -/
theorem roundtrip_within_tile (lat lon extent : ℝ) (z : ℕ)
    (hlon1 : -180 ≤ lon) (hlon2 : lon ≤ 180) (hlat1 : -90 < lat) (hlat2 : lat < 90)
    (hy : 0 ≤ ytile lat z) (he : 0 < extent) :
    |(tile_pixel_to_lonlat z ((latlon_to_tile_xy lat lon z).1 : ℝ)
        ((latlon_to_tile_xy lat lon z).2 : ℝ) (extent / 2) (extent / 2) extent).1 - lon| ≤
      360 / 2 ^ z ∧
    |(tile_pixel_to_lonlat z ((latlon_to_tile_xy lat lon z).1 : ℝ)
        ((latlon_to_tile_xy lat lon z).2 : ℝ) (extent / 2) (extent / 2) extent).2 - lat| ≤
      (tile_pixel_to_lonlat z ((latlon_to_tile_xy lat lon z).1 : ℝ)
        ((latlon_to_tile_xy lat lon z).2 : ℝ) 0 0 extent).2 -
      (tile_pixel_to_lonlat z ((latlon_to_tile_xy lat lon z).1 : ℝ)
        ((latlon_to_tile_xy lat lon z).2 : ℝ) 0 extent extent).2 := by
  have hn : (0 : ℝ) < 2 ^ z := by positivity
  have hx : 0 ≤ xtile lon z := by
    unfold xtile
    have h0 : (0 : ℝ) ≤ (lon + 180) / 360 := by
      apply div_nonneg (by linarith) (by norm_num)
    exact mul_nonneg h0 hn.le
  have hfst : (latlon_to_tile_xy lat lon z).1 = ⌊xtile lon z⌋ := by
    show pyInt (xtile lon z) = ⌊xtile lon z⌋
    exact pyInt_of_nonneg _ hx
  have hsnd : (latlon_to_tile_xy lat lon z).2 = ⌊ytile lat z⌋ := by
    show pyInt (ytile lat z) = ⌊ytile lat z⌋
    exact pyInt_of_nonneg _ hy
  rw [hfst, hsnd]
  simp only [tile_pixel_to_lonlat]
  have hhalf : extent / 2 / extent = 1 / 2 := by
    field_simp
    ring
  have hone : extent / extent = 1 := div_self he.ne'
  rw [hhalf, hone, zero_div, add_zero]
  set a : ℝ := ((⌊xtile lon z⌋ : ℤ) : ℝ) with ha
  set b : ℝ := ((⌊ytile lat z⌋ : ℤ) : ℝ) with hb
  have hfl : a ≤ xtile lon z := Int.floor_le _
  have hfu : xtile lon z < a + 1 := Int.lt_floor_add_one _
  have hfl2 : b ≤ ytile lat z := Int.floor_le _
  have hfu2 : ytile lat z < b + 1 := Int.lt_floor_add_one _
  constructor
  · have hlon_eq : lon = xtile lon z / 2 ^ z * 360 - 180 := by
      unfold xtile
      field_simp
      ring
    rw [hlon_eq]
    have key : (a + 1 / 2) / 2 ^ z * 360 - 180 - (xtile lon z / 2 ^ z * 360 - 180) =
        (a + 1 / 2 - xtile lon z) * (360 / 2 ^ z) := by
      field_simp
      ring
    rw [key, abs_le]
    have hd : (0 : ℝ) < 360 / 2 ^ z := by positivity
    have h1 : (a + 1 / 2 - xtile lon z) * (360 / 2 ^ z) ≤ (1 / 2) * (360 / 2 ^ z) :=
      mul_le_mul_of_nonneg_right (by linarith) hd.le
    have h2 : (-(1 / 2)) * (360 / 2 ^ z) ≤ (a + 1 / 2 - xtile lon z) * (360 / 2 ^ z) :=
      mul_le_mul_of_nonneg_right (by linarith) hd.le
    constructor
    · linarith
    · linarith
  · have hlat_eq : degrees (Real.arctan (Real.sinh
        (Real.pi - 2 * Real.pi * (ytile lat z / 2 ^ z)))) = lat :=
      invLat_ytile lat z hlat1 hlat2
    have hy1 : b / 2 ^ z ≤ ytile lat z / 2 ^ z := (div_le_div_iff_of_pos_right hn).mpr hfl2
    have hy2 : ytile lat z / 2 ^ z ≤ (b + 1) / 2 ^ z := (div_le_div_iff_of_pos_right hn).mpr hfu2.le
    have hy3 : b / 2 ^ z ≤ (b + 1 / 2) / 2 ^ z := (div_le_div_iff_of_pos_right hn).mpr (by linarith)
    have hy4 : (b + 1 / 2) / 2 ^ z ≤ (b + 1) / 2 ^ z := (div_le_div_iff_of_pos_right hn).mpr (by linarith)
    have hlat_top : lat ≤ degrees (Real.arctan (Real.sinh
        (Real.pi - 2 * Real.pi * (b / 2 ^ z)))) := by
      rw [← hlat_eq]
      exact invLat_antitone _ _ hy1
    have hlat_bot : degrees (Real.arctan (Real.sinh
        (Real.pi - 2 * Real.pi * ((b + 1) / 2 ^ z)))) ≤ lat := by
      rw [← hlat_eq]
      exact invLat_antitone _ _ hy2
    have hmid_top : degrees (Real.arctan (Real.sinh
        (Real.pi - 2 * Real.pi * ((b + 1 / 2) / 2 ^ z)))) ≤
        degrees (Real.arctan (Real.sinh (Real.pi - 2 * Real.pi * (b / 2 ^ z)))) :=
      invLat_antitone _ _ hy3
    have hmid_bot : degrees (Real.arctan (Real.sinh
        (Real.pi - 2 * Real.pi * ((b + 1) / 2 ^ z)))) ≤
        degrees (Real.arctan (Real.sinh (Real.pi - 2 * Real.pi * ((b + 1 / 2) / 2 ^ z)))) :=
      invLat_antitone _ _ hy4
    rw [abs_le]
    constructor
    · linarith
    · linarith

/-- Witness for C1 at the origin point, zoom 0, extent 4096. -/
theorem roundtrip_within_tile_witness :
    ((-180 : ℝ) ≤ 0 ∧ (0 : ℝ) ≤ 180 ∧ (-90 : ℝ) < 0 ∧ (0 : ℝ) < 90 ∧
      0 ≤ ytile 0 0 ∧ (0 : ℝ) < 4096) ∧
    |(tile_pixel_to_lonlat 0 ((latlon_to_tile_xy 0 0 0).1 : ℝ)
        ((latlon_to_tile_xy 0 0 0).2 : ℝ) (4096 / 2) (4096 / 2) 4096).1 - 0| ≤
      360 / 2 ^ 0 ∧
    |(tile_pixel_to_lonlat 0 ((latlon_to_tile_xy 0 0 0).1 : ℝ)
        ((latlon_to_tile_xy 0 0 0).2 : ℝ) (4096 / 2) (4096 / 2) 4096).2 - 0| ≤
      (tile_pixel_to_lonlat 0 ((latlon_to_tile_xy 0 0 0).1 : ℝ)
        ((latlon_to_tile_xy 0 0 0).2 : ℝ) 0 0 4096).2 -
      (tile_pixel_to_lonlat 0 ((latlon_to_tile_xy 0 0 0).1 : ℝ)
        ((latlon_to_tile_xy 0 0 0).2 : ℝ) 0 4096 4096).2 := by
  have hy0 : (0 : ℝ) ≤ ytile 0 0 := by
    unfold ytile
    rw [show radians 0 = 0 by simp [radians]]
    norm_num [Real.tan_zero, Real.cos_zero, Real.log_one]
  have T := roundtrip_within_tile 0 0 4096 0 (by norm_num) (by norm_num) (by norm_num)
    (by norm_num) hy0 (by norm_num)
  exact ⟨⟨by norm_num, by norm_num, by norm_num, by norm_num, hy0, by norm_num⟩, T.1, T.2⟩

/-- C2: for latitudes strictly between the poles, `latlon_to_tile_xy`
computes the standard spherical Web-Mercator tiling formula — longitude
linearly scaled, latitude through ln(tan lat + sec lat) — and truncates
to integers, with truncation agreeing with `floor` whenever the
normalized coordinates are non-negative (as they are in range). -/
theorem latlon_to_tile_xy_eq_floor (lat lon : ℝ) (z : ℕ)
    (hlat1 : -90 < lat) (hlat2 : lat < 90)
    (hx : 0 ≤ (lon + 180) / 360 * 2 ^ z)
    (hy : 0 ≤ (1 - Real.log (Real.tan (radians lat) + 1 / Real.cos (radians lat)) /
      Real.pi) / 2 * 2 ^ z) :
    latlon_to_tile_xy lat lon z =
      (⌊(lon + 180) / 360 * 2 ^ z⌋,
       ⌊(1 - Real.log (Real.tan (radians lat) + 1 / Real.cos (radians lat)) /
          Real.pi) / 2 * 2 ^ z⌋) := by
  unfold latlon_to_tile_xy pyInt xtile ytile
  rw [if_neg (not_lt.mpr hx), if_neg (not_lt.mpr hy)]

/-- Witness for C2 at the equator and prime meridian at zoom 0. -/
theorem latlon_to_tile_xy_eq_floor_witness :
    ((-90 : ℝ) < 0 ∧ (0 : ℝ) < 90 ∧
      (0 : ℝ) ≤ ((0 : ℝ) + 180) / 360 * 2 ^ 0 ∧
      (0 : ℝ) ≤ (1 - Real.log (Real.tan (radians 0) + 1 / Real.cos (radians 0)) /
        Real.pi) / 2 * 2 ^ 0) ∧
    latlon_to_tile_xy 0 0 0 =
      (⌊((0 : ℝ) + 180) / 360 * 2 ^ 0⌋,
       ⌊(1 - Real.log (Real.tan (radians 0) + 1 / Real.cos (radians 0)) /
          Real.pi) / 2 * 2 ^ 0⌋) := by
  have hrad : radians 0 = 0 := by simp [radians]
  have hy : (0 : ℝ) ≤ (1 - Real.log (Real.tan (radians 0) + 1 / Real.cos (radians 0)) /
      Real.pi) / 2 * 2 ^ 0 := by
    rw [hrad]
    norm_num [Real.tan_zero, Real.cos_zero, Real.log_one]
  exact ⟨⟨by norm_num, by norm_num, by norm_num, hy⟩,
    latlon_to_tile_xy_eq_floor 0 0 0 (by norm_num) (by norm_num) (by norm_num) hy⟩

/-- C5: `convert_geometry` returns `None` exactly when the geometry is
missing/falsy, lacks the `type` key, lacks the `coordinates` key, or its
type is not one of the four recognized variants; and the feature loop of
`collect_traffic_flow` silently skips such a feature, continuing with
the remaining features instead of raising. -/
theorem convert_geometry_none_iff (geom : Option RawGeom) (z : ℕ) (tx ty : ℤ)
    (extent : ℝ) (f : RawFeature) (rest : List RawFeature) :
    (convert_geometry geom z tx ty extent = .ok none ↔
      geom = none ∨ ∃ g, geom = some g ∧ (g.type? = none ∨ g.coordinates? = none ∨
        (g.type? ≠ some "Point" ∧ g.type? ≠ some "LineString" ∧
          g.type? ≠ some "MultiLineString" ∧ g.type? ≠ some "Polygon"))) ∧
    (convert_geometry f.geometry z tx ty extent = .ok none →
      collect_layer_geometries z tx ty extent (f :: rest) =
        collect_layer_geometries z tx ty extent rest) := by
  constructor
  · match geom with
    | none => simp [convert_geometry]
    | some ⟨none, co⟩ => simp [convert_geometry]
    | some ⟨some t, none⟩ => simp [convert_geometry]
    | some ⟨some t, some coords⟩ =>
      simp only [convert_geometry]
      constructor
      · intro h
        split_ifs at h with h1 h2 h3 h4
        · exact absurd h (by cases coords <;> simp)
        · exact absurd h (by cases coords <;> simp)
        · exact absurd h (by cases coords <;> simp)
        · exact absurd h (by cases coords <;> simp)
        · exact Or.inr ⟨⟨some t, some coords⟩, rfl, Or.inr (Or.inr
            ⟨by simpa using h1, by simpa using h2, by simpa using h3, by simpa using h4⟩)⟩
      · rintro (h | ⟨g, hg, hcase⟩)
        · exact absurd h (by simp)
        · obtain rfl : g = ⟨some t, some coords⟩ := (Option.some.inj hg).symm
          rcases hcase with h' | h' | ⟨n1, n2, n3, n4⟩
          · exact absurd h' (by simp)
          · exact absurd h' (by simp)
          · rw [if_neg (fun hc => n1 (by rw [hc])), if_neg (fun hc => n2 (by rw [hc])),
              if_neg (fun hc => n3 (by rw [hc])), if_neg (fun hc => n4 (by rw [hc]))]
  · intro h
    match hf : f.geometry with
    | none => simp [collect_layer_geometries, hf]
    | some g =>
      by_cases ht : g.type? = none
      · simp [collect_layer_geometries, hf, ht]
      · rw [hf] at h
        simp [collect_layer_geometries, hf, ht, h]

/-- Witness for C5: a geometry with the unrecognized type "Foo" converts
to `None`, and a one-feature layer with it collects nothing, silently. -/
theorem convert_geometry_none_iff_witness :
    convert_geometry (some ⟨some "Foo", some (.pair (0, 0))⟩) 0 0 0 4096 = .ok none ∧
      collect_layer_geometries 0 0 0 4096 [⟨some ⟨some "Foo", some (.pair (0, 0))⟩⟩] =
        .ok [] := by
  have h : convert_geometry (some ⟨some "Foo", some (.pair (0, 0))⟩) 0 0 0 4096 =
      .ok none := by
    simp [convert_geometry]
  refine ⟨h, ?_⟩
  rw [(convert_geometry_none_iff (some ⟨some "Foo", some (.pair (0, 0))⟩) 0 0 0 4096
      ⟨some ⟨some "Foo", some (.pair (0, 0))⟩⟩ []).2 h]
  rfl

/-- C4: on each well-formed geometry variant, `convert_geometry` returns
the same variant with identical nesting structure (part/ring counts and
vertex counts preserved, in order) and every coordinate pair rewritten
through `tile_pixel_to_lonlat`; a well-formed LineString of N points
yields exactly N points, and with in-range tile index and pixel offsets
each resulting longitude lies in [-180, 180] while each resulting
latitude lies strictly inside (-90, 90). -/
theorem convert_geometry_structure (z : ℕ) (tx ty : ℤ) (extent : ℝ) (c : ℝ × ℝ)
    (ps : List (ℝ × ℝ)) (pss rs : List (List (ℝ × ℝ))) :
    convert_geometry (some ⟨some "Point", some (.pair c)⟩) z tx ty extent =
      .ok (some (.point (conv_point z tx ty extent c))) ∧
    convert_geometry (some ⟨some "LineString", some (.list1 ps)⟩) z tx ty extent =
      .ok (some (.lineString (ps.map (conv_point z tx ty extent)))) ∧
    (ps.map (conv_point z tx ty extent)).length = ps.length ∧
    convert_geometry (some ⟨some "MultiLineString", some (.list2 pss)⟩) z tx ty extent =
      .ok (some (.multiLineString (pss.map (List.map (conv_point z tx ty extent))))) ∧
    (pss.map (List.map (conv_point z tx ty extent))).map List.length =
      pss.map List.length ∧
    convert_geometry (some ⟨some "Polygon", some (.list2 rs)⟩) z tx ty extent =
      .ok (some (.polygon (rs.map (List.map (conv_point z tx ty extent))))) ∧
    (rs.map (List.map (conv_point z tx ty extent))).map List.length =
      rs.map List.length ∧
    ∀ p : ℝ × ℝ, 0 < extent → 0 ≤ tx → tx < 2 ^ z → 0 ≤ p.1 → p.1 ≤ extent →
      (-180 ≤ (conv_point z tx ty extent p).1 ∧ (conv_point z tx ty extent p).1 ≤ 180) ∧
      (-90 < (conv_point z tx ty extent p).2 ∧ (conv_point z tx ty extent p).2 < 90) := by
  refine ⟨by simp [convert_geometry], by simp [convert_geometry], by simp,
    by simp [convert_geometry], by simp [Function.comp], by simp [convert_geometry],
    by simp [Function.comp], ?_⟩
  intro p he htx0 htxn hp0 hpe
  have npos : (0 : ℝ) < 2 ^ z := by positivity
  have hdiv0 : 0 ≤ p.1 / extent := div_nonneg hp0 he.le
  have hdiv1 : p.1 / extent ≤ 1 := (div_le_one he).mpr hpe
  have htxr : (tx : ℝ) + 1 ≤ 2 ^ z := by
    have h1 : (tx : ℤ) + 1 ≤ 2 ^ z := htxn
    calc (tx : ℝ) + 1 = ((tx + 1 : ℤ) : ℝ) := by push_cast; ring
      _ ≤ ((2 ^ z : ℤ) : ℝ) := by exact_mod_cast h1
      _ = 2 ^ z := by push_cast; ring
  have htxr0 : (0 : ℝ) ≤ (tx : ℝ) := by exact_mod_cast htx0
  have hs0 : 0 ≤ (tx : ℝ) + p.1 / extent := by linarith
  have hs1 : (tx : ℝ) + p.1 / extent ≤ 2 ^ z := by linarith
  have hx0 : 0 ≤ ((tx : ℝ) + p.1 / extent) / 2 ^ z := div_nonneg hs0 npos.le
  have hx1 : ((tx : ℝ) + p.1 / extent) / 2 ^ z ≤ 1 := (div_le_one npos).mpr hs1
  have hpi : (0 : ℝ) < 180 / Real.pi := by
    have := Real.pi_pos
    positivity
  have h90 : -(Real.pi / 2) * (180 / Real.pi) = -90 := by
    field_simp
    ring
  have h90b : Real.pi / 2 * (180 / Real.pi) = 90 := by
    field_simp
    ring
  constructor
  · constructor
    · simp only [conv_point, tile_pixel_to_lonlat]
      nlinarith [hx0]
    · simp only [conv_point, tile_pixel_to_lonlat]
      nlinarith [hx1]
  · constructor
    · simp only [conv_point, tile_pixel_to_lonlat, degrees]
      have h1 := Real.neg_pi_div_two_lt_arctan
        (Real.sinh (Real.pi - 2 * Real.pi * (((ty : ℝ) + p.2 / extent) / 2 ^ z)))
      calc (-90 : ℝ) = -(Real.pi / 2) * (180 / Real.pi) := h90.symm
        _ < _ := by exact mul_lt_mul_of_pos_right h1 hpi
    · simp only [conv_point, tile_pixel_to_lonlat, degrees]
      have h2 := Real.arctan_lt_pi_div_two
        (Real.sinh (Real.pi - 2 * Real.pi * (((ty : ℝ) + p.2 / extent) / 2 ^ z)))
      calc _ < Real.pi / 2 * (180 / Real.pi) := mul_lt_mul_of_pos_right h2 hpi
        _ = 90 := h90b

/-- Witness for C4: a one-point LineString in tile (0,0) at zoom 0
converts to a one-point LineString, and the converted corner pixel's
coordinates lie in the valid geographic ranges. -/
theorem convert_geometry_structure_witness :
    convert_geometry (some ⟨some "LineString", some (.list1 [((0 : ℝ), (0 : ℝ))])⟩)
        0 0 0 4096 = .ok (some (.lineString [conv_point 0 0 0 4096 (0, 0)])) ∧
      (0 : ℝ) < 4096 ∧ (0 : ℤ) ≤ 0 ∧ (0 : ℤ) < 2 ^ 0 ∧
      -180 ≤ (conv_point 0 0 0 4096 ((0 : ℝ), (0 : ℝ))).1 ∧
      (conv_point 0 0 0 4096 ((0 : ℝ), (0 : ℝ))).2 < 90 := by
  have T := convert_geometry_structure 0 0 0 4096 ((0 : ℝ), (0 : ℝ))
    [((0 : ℝ), (0 : ℝ))] [] []
  have R := T.2.2.2.2.2.2.2 ((0 : ℝ), (0 : ℝ)) (by norm_num) le_rfl (by norm_num)
    le_rfl (by norm_num)
  exact ⟨by simpa using T.2.1, by norm_num, le_rfl, by norm_num, R.1.1, R.2.2⟩

/-- C8 counterexample: with tiles [(0,0),(1,1)] and the fetch of (0,0)
failing, the trace is the error log followed immediately by the next
tile's fetch — no sleep separates them, because `continue` in the
`except` branch skips the inter-tile delay. -/
theorem collect_traffic_flow_trace_no_sleep_on_error :
    collect_traffic_flow_trace (fun p => decide (p ≠ ((0 : ℤ), (0 : ℤ)))) [(0, 0), (1, 1)] =
      [Ev.fetch 0 0, Ev.errorLog 0 0, Ev.fetch 1 1, Ev.sleep] ∧
    Ev.sleep ∉ (collect_traffic_flow_trace (fun p => decide (p ≠ ((0 : ℤ), (0 : ℤ))))
      [(0, 0), (1, 1)]).take 3 := by
  decide

/-- C8 amended: the fixed inter-tile delay occurs exactly once per
successfully processed tile; a failed tile transitions to
Skipped-on-error through `continue`, which skips the delay, so its trace
ends at the error log with no sleep. -/
theorem collect_traffic_flow_trace_sleep_count (ok : ℤ × ℤ → Bool)
    (tiles : List (ℤ × ℤ)) :
    (collect_traffic_flow_trace ok tiles).count Ev.sleep = (tiles.filter ok).length ∧
    ∀ tx ty : ℤ, ok (tx, ty) = false →
      collect_traffic_flow_trace ok [(tx, ty)] = [Ev.fetch tx ty, Ev.errorLog tx ty] := by
  constructor
  · induction tiles with
    | nil => rfl
    | cons t rest ih =>
      obtain ⟨tx, ty⟩ := t
      by_cases h : ok (tx, ty)
      · simp [collect_traffic_flow_trace, h, List.count_cons, ih]
      · simp [collect_traffic_flow_trace, h, List.count_cons, ih]
  · intro tx ty h
    simp [collect_traffic_flow_trace, h]

/-- Witness for C8 amended: a single failing tile produces a trace with
the fetch and the error log only. -/
theorem collect_traffic_flow_trace_sleep_count_witness :
    (fun p => decide (p ≠ ((0 : ℤ), (0 : ℤ)))) ((0 : ℤ), (0 : ℤ)) = false ∧
      collect_traffic_flow_trace (fun p => decide (p ≠ ((0 : ℤ), (0 : ℤ))))
        [((0 : ℤ), (0 : ℤ))] = [Ev.fetch 0 0, Ev.errorLog 0 0] :=
  ⟨by decide, (collect_traffic_flow_trace_sleep_count
      (fun p => decide (p ≠ ((0 : ℤ), (0 : ℤ)))) [((0 : ℤ), (0 : ℤ))]).2 0 0 (by decide)⟩

/-- Witness for C10: a Point feature at longitude 0 is skipped, so a
one-feature run issues no query. -/
theorem sample_query_points_skip_witness :
    extract_center_point (.point ((0 : ℝ), (47 : ℝ))) = .ok (some 47, some 0) ∧
      sample_query_points [.point ((0 : ℝ), (47 : ℝ))] = .ok [] :=
  ⟨rfl, by
    rw [(sample_query_points_skip (.point ((0 : ℝ), (47 : ℝ))) []
        (some 47) (some 0)).1 rfl (by simp)]
    rfl⟩
